import Mathlib

/-!
Verification development for the Bambu-Lab-RFID-Library repository.

The Python sources under `.github/scripts/` are shallowly embedded here:
bytes become `List Nat` (each element a byte value), Python `str` becomes
`String` (processed through its underlying `List Char`), Python dicts —
which preserve insertion order and update keys in place — become
association lists with an in-place-update insert.  Dict keys that are
always produced by `str()` applied to a block or sector number are
modelled as `Nat` keys (decimal `str` is a bijection on `Nat`, and the
scripts only ever convert with `str()` on write and `int()` on read).
-/

namespace BambuRFID

set_option maxRecDepth 8000

/-! ## Python string primitives -/

/-- Whitespace recognised by Python's `str.strip` and by `bytes.fromhex`
(ASCII space, tab, newline, carriage return, vertical tab, form feed). -/
def isSpaceChar (c : Char) : Bool :=
  c.toNat = 32 || c.toNat = 9 || c.toNat = 10 || c.toNat = 13 ||
    c.toNat = 11 || c.toNat = 12

/-- Python `str.strip()`: drop leading and trailing whitespace. -/
def pyStripList (cs : List Char) : List Char :=
  ((cs.dropWhile isSpaceChar).reverse.dropWhile isSpaceChar).reverse

/-- Python `str.strip()` on a `String`. -/
def pyStrip (s : String) : String :=
  String.mk (pyStripList s.data)

/-- Python `s.split(sep)` restricted to the single-character separators the
scripts use (`'\n'` for line splitting); empty pieces are kept, and the
empty string splits to one empty piece, exactly as in Python. -/
def pySplitChar (sep : Char) : List Char → List (List Char)
  | [] => [[]]
  | c :: rest =>
    if c = sep then [] :: pySplitChar sep rest
    else
      match pySplitChar sep rest with
      | [] => [[c]]
      | g :: gs => (c :: g) :: gs

/-- Split a string into lines the way `text.split('\n')` does. -/
def pySplitLines (s : String) : List String :=
  (pySplitChar '\n' s.data).map String.mk

/-- Python `s[n:]` on a string. -/
def pyDrop (n : Nat) (s : String) : String :=
  String.mk (s.data.drop n)

/-- Python `s[:-1]` on a string (drop the last character). -/
def pyDropLast (s : String) : String :=
  String.mk s.data.dropLast

/-- Python `s[a:b]` for `0 ≤ a ≤ b` on a string. -/
def strSlice (s : String) (a b : Nat) : String :=
  String.mk ((s.data.drop a).take (b - a))

/-- Python `s[-2:]`: the last two characters (the whole string when it is
shorter than two characters, as in Python). -/
def pyLastTwo (s : String) : String :=
  String.mk (s.data.drop (s.data.length - 2))

/-- Python `s.startswith(p)`. -/
def pyStartsWith (s p : String) : Bool :=
  p.data.isPrefixOf s.data

/-- Python `s.endswith(p)`. -/
def pyEndsWith (s p : String) : Bool :=
  p.data.reverse.isPrefixOf s.data.reverse

/-- Python `s.isdigit()` over the ASCII text the decoder emits: nonempty
and every character a decimal digit. -/
def pyIsDigit (s : String) : Bool :=
  !s.data.isEmpty && s.data.all (fun c => 48 ≤ c.toNat && c.toNat ≤ 57)

/-- Python `s.lower()` over ASCII text. -/
def pyLower (s : String) : String :=
  String.mk (s.data.map (fun c =>
    if 65 ≤ c.toNat && c.toNat ≤ 90 then Char.ofNat (c.toNat + 32) else c))

/-- Decimal value of an all-digit string, the value `int(s)` returns on a
string accepted by `isdigit`. -/
def decimalValue (s : String) : Nat :=
  s.data.foldl (fun a c => a * 10 + (c.toNat - 48)) 0

/-- Python `int(s)` on an already-stripped string: optional sign followed by
at least one decimal digit (the underscore digit-grouping extension is not
used by any input in scope and is not modelled). Returns `none` where
Python raises `ValueError`. -/
def pyIntOpt (s : String) : Option Int :=
  match s.data with
  | [] => none
  | '-' :: ds =>
    if !ds.isEmpty && ds.all (fun c => 48 ≤ c.toNat && c.toNat ≤ 57) then
      some (-(Int.ofNat (decimalValue (String.mk ds))))
    else none
  | '+' :: ds =>
    if !ds.isEmpty && ds.all (fun c => 48 ≤ c.toNat && c.toNat ≤ 57) then
      some (Int.ofNat (decimalValue (String.mk ds)))
    else none
  | ds =>
    if ds.all (fun c => 48 ≤ c.toNat && c.toNat ≤ 57) then
      some (Int.ofNat (decimalValue (String.mk ds)))
    else none

/-- Python `os.path.basename` on POSIX paths: the part after the last
slash. -/
def pyBasename (s : String) : String :=
  String.mk ((pySplitChar '/' s.data).getLastD [])

/-- Python `range(start, stop, step)` for a positive step. -/
def pyRangeStep (start stop step : Nat) : List Nat :=
  (List.range ((stop - start + step - 1) / step)).map (fun i => start + step * i)

/-! ## Hex encoding and decoding -/

/-- Uppercase hex digit for a value below 16 (values at or above 16 never
arise from byte inputs; a placeholder keeps the function total). -/
def hexDigitChar (n : Nat) : Char :=
  (['0', '1', '2', '3', '4', '5', '6', '7', '8', '9',
    'A', 'B', 'C', 'D', 'E', 'F'].getD n '?')

/-- Python `data.hex().upper()`: each byte becomes two uppercase hex
characters, in order. -/
def hexUpper (bs : List Nat) : String :=
  String.mk (bs.flatMap (fun b => [hexDigitChar (b / 16), hexDigitChar (b % 16)]))

/-- Value of a hex digit character, `none` for non-hex characters —
the digit table `bytes.fromhex` consults. -/
def hexCharVal (c : Char) : Option Nat :=
  if 48 ≤ c.toNat && c.toNat ≤ 57 then some (c.toNat - 48)
  else if 65 ≤ c.toNat && c.toNat ≤ 70 then some (c.toNat - 55)
  else if 97 ≤ c.toNat && c.toNat ≤ 102 then some (c.toNat - 87)
  else none

/-- Python `bytes.fromhex`: whitespace may precede each digit pair, each
pair must be two hex digits with no space between them; `none` where
Python raises `ValueError`. -/
def pyFromHexPairs : List Char → Option (List Nat)
  | [] => some []
  | c :: rest =>
    if isSpaceChar c then pyFromHexPairs rest
    else
      match rest with
      | [] => none
      | c2 :: rest2 =>
        match hexCharVal c, hexCharVal c2 with
        | some hi, some lo => (pyFromHexPairs rest2).map (fun bs => (hi * 16 + lo) :: bs)
        | _, _ => none

/-- Python `bytes.fromhex` on a `String`. -/
def pyFromHex (s : String) : Option (List Nat) :=
  pyFromHexPairs s.data

/-! ## SHA-256, HMAC and PyCryptodome's HKDF

`derive_bambu_keys` calls `Cryptodome.Protocol.KDF.HKDF` with
`Cryptodome.Hash.SHA256`; the primitive chain is embedded here in full so
the key derivation is executable end to end. All word arithmetic is `Nat`
reduced modulo `2 ^ 32`. -/

/-- Right rotation of a 32-bit word. -/
def rotr32 (n x : Nat) : Nat :=
  x / 2 ^ n + x % 2 ^ n * 2 ^ (32 - n)

/-- Bitwise complement of a 32-bit word. -/
def bnot32 (x : Nat) : Nat :=
  x ^^^ 0xFFFFFFFF

/-- SHA-256 round constants of FIPS 180-4, written in decimal. -/
def shaK : List Nat :=
  [1116352408, 1899447441, 3049323471, 3921009573, 961987163,
   1508970993, 2453635748, 2870763221, 3624381080, 310598401,
   607225278, 1426881987, 1925078388, 2162078206, 2614888103,
   3248222580, 3835390401, 4022224774, 264347078, 604807628,
   770255983, 1249150122, 1555081692, 1996064986, 2554220882,
   2821834349, 2952996808, 3210313671, 3336571891, 3584528711,
   113926993, 338241895, 666307205, 773529912, 1294757372,
   1396182291, 1695183700, 1986661051, 2177026350, 2456956037,
   2730485921, 2820302411, 3259730800, 3345764771, 3516065817,
   3600352804, 4094571909, 275423344, 430227734, 506948616,
   659060556, 883997877, 958139571, 1322822218, 1537002063,
   1747873779, 1955562222, 2024104815, 2227730452, 2361852424,
   2428436474, 2756734187, 3204031479, 3329325298]

/-- Running hash state: the eight 32-bit registers. -/
structure Sha256State where
  r0 : Nat
  r1 : Nat
  r2 : Nat
  r3 : Nat
  r4 : Nat
  r5 : Nat
  r6 : Nat
  r7 : Nat
deriving DecidableEq

/-- Initial SHA-256 hash state of FIPS 180-4, written in decimal. -/
def shaInit : Sha256State :=
  ⟨1779033703, 3144134277, 1013904242, 2773480762,
   1359893119, 2600822924, 528734635, 1541459225⟩

/-- Big-endian 8-byte encoding of the bit length appended by padding. -/
def be64 (n : Nat) : List Nat :=
  [n / 2 ^ 56 % 256, n / 2 ^ 48 % 256, n / 2 ^ 40 % 256, n / 2 ^ 32 % 256,
   n / 2 ^ 24 % 256, n / 2 ^ 16 % 256, n / 2 ^ 8 % 256, n % 256]

/-- SHA-256 message padding: `0x80`, zeros to 56 mod 64, then the bit
length in 8 big-endian bytes. -/
def shaPad (msg : List Nat) : List Nat :=
  msg ++ [0x80] ++ List.replicate ((64 + 55 - msg.length % 64) % 64) 0 ++
    be64 (8 * msg.length)

/-- Big-endian 32-bit word from four bytes of a block. -/
def wordAt (block : List Nat) (i : Nat) : Nat :=
  block.getD (4 * i) 0 * 2 ^ 24 + block.getD (4 * i + 1) 0 * 2 ^ 16 +
    block.getD (4 * i + 2) 0 * 2 ^ 8 + block.getD (4 * i + 3) 0

/-- Message-schedule extension step, appending one word to the schedule. -/
def extendW (ws : List Nat) : Nat → List Nat
  | 0 => ws
  | n + 1 =>
    let prev := extendW ws n
    let t := prev.length
    let s0 := rotr32 7 (prev.getD (t - 15) 0) ^^^ rotr32 18 (prev.getD (t - 15) 0) ^^^
      prev.getD (t - 15) 0 / 2 ^ 3
    let s1 := rotr32 17 (prev.getD (t - 2) 0) ^^^ rotr32 19 (prev.getD (t - 2) 0) ^^^
      prev.getD (t - 2) 0 / 2 ^ 10
    prev ++ [(prev.getD (t - 16) 0 + s0 + prev.getD (t - 7) 0 + s1) % 2 ^ 32]

/-- One SHA-256 round over the working registers, consuming one schedule
word paired with its round constant. -/
def shaRound (st : Sha256State) (kw : Nat × Nat) : Sha256State :=
  let e := st.r4
  let bigS1 := rotr32 6 e ^^^ rotr32 11 e ^^^ rotr32 25 e
  let ch := (e &&& st.r5) ^^^ (bnot32 e &&& st.r6)
  let t1 := (st.r7 + bigS1 + ch + kw.1 + kw.2) % 2 ^ 32
  let a := st.r0
  let bigS0 := rotr32 2 a ^^^ rotr32 13 a ^^^ rotr32 22 a
  let maj := (a &&& st.r1) ^^^ (a &&& st.r2) ^^^ (st.r1 &&& st.r2)
  let t2 := (bigS0 + maj) % 2 ^ 32
  ⟨(t1 + t2) % 2 ^ 32, st.r0, st.r1, st.r2,
   (st.r3 + t1) % 2 ^ 32, st.r4, st.r5, st.r6⟩

/-- Compression of one 64-byte block into the running state. -/
def shaCompress (st : Sha256State) (block : List Nat) : Sha256State :=
  let ws := extendW ((List.range 16).map (wordAt block)) 48
  let f := (shaK.zip ws).foldl shaRound st
  ⟨(st.r0 + f.r0) % 2 ^ 32, (st.r1 + f.r1) % 2 ^ 32, (st.r2 + f.r2) % 2 ^ 32,
   (st.r3 + f.r3) % 2 ^ 32, (st.r4 + f.r4) % 2 ^ 32, (st.r5 + f.r5) % 2 ^ 32,
   (st.r6 + f.r6) % 2 ^ 32, (st.r7 + f.r7) % 2 ^ 32⟩

/-- Big-endian bytes of one 32-bit register. -/
def wordBytes (w : Nat) : List Nat :=
  [w / 2 ^ 24 % 256, w / 2 ^ 16 % 256, w / 2 ^ 8 % 256, w % 256]

/-- Digest bytes of a final hash state. -/
def digestBytes (st : Sha256State) : List Nat :=
  wordBytes st.r0 ++ wordBytes st.r1 ++ wordBytes st.r2 ++ wordBytes st.r3 ++
    wordBytes st.r4 ++ wordBytes st.r5 ++ wordBytes st.r6 ++ wordBytes st.r7

/-- SHA-256 of a byte string. -/
def sha256 (msg : List Nat) : List Nat :=
  let padded := shaPad msg
  digestBytes (((List.range (padded.length / 64)).map
    (fun i => (padded.drop (64 * i)).take 64)).foldl shaCompress shaInit)

/-- HMAC-SHA256 with the standard 64-byte block size, as
`Cryptodome.Hash.HMAC` computes it. -/
def hmacSha256 (key msg : List Nat) : List Nat :=
  let kh := if 64 < key.length then sha256 key else key
  let k0 := kh ++ List.replicate (64 - kh.length) 0
  sha256 (k0.map (fun b => b ^^^ 0x5c) ++ sha256 (k0.map (fun b => b ^^^ 0x36) ++ msg))

/-- HKDF expansion block `T_n` (1-based) with the given pseudorandom key
and context, `T_0` being empty, as in `Cryptodome.Protocol.KDF.HKDF`. -/
def hkdfT (prk ctx : List Nat) : Nat → List Nat
  | 0 => []
  | n + 1 => hmacSha256 prk (hkdfT prk ctx n ++ ctx ++ [n + 1])

/-- PyCryptodome `HKDF(master, key_len, salt, SHA256, num_keys, context)`
for `num_keys > 1`: extract a pseudorandom key with HMAC keyed by the
salt, expand to `key_len * num_keys` bytes, and slice the output into
`key_len`-byte pieces. Note the argument roles: the first argument
`master` is the input keying material and `salt` keys the extraction. -/
def pyHKDF (master : List Nat) (keyLen : Nat) (salt : List Nat) (numKeys : Nat)
    (context : List Nat) : List (List Nat) :=
  let prk := hmacSha256 salt master
  let outLen := keyLen * numKeys
  let nBlocks := (outLen + 31) / 32
  let derived := ((List.range nBlocks).map (fun i => hkdfT prk context (i + 1))).flatten
  ((pyRangeStep 0 outLen keyLen).map
    (fun idx => (derived.drop idx).take keyLen)).take numKeys

/-! ## Key derivation (`decrypt-rfid-dumps.py`, class `RFIDDecryptor`) -/

/-- Fixed 16-byte master secret from `derive_bambu_keys`. -/
def bambuMasterSecret : List Nat :=
  [0x9a, 0x75, 0x9c, 0xf2, 0xc4, 0xf7, 0xca, 0xff,
   0x22, 0x2c, 0xb9, 0x76, 0x9b, 0x41, 0xbc, 0x96]

/-- Context label `b"RFID-A\0"` from `derive_bambu_keys`. -/
def rfidAContext : List Nat :=
  [0x52, 0x46, 0x49, 0x44, 0x2d, 0x41, 0x00]

/-- The HKDF call in `derive_bambu_keys`:
`HKDF(uid, 6, master, SHA256, 16, context=b"RFID-A\0")` — the UID is the
input keying material, the fixed secret is the salt, and sixteen 6-byte
keys are requested. -/
def bambuHkdfKeys (uid : List Nat) : List (List Nat) :=
  pyHKDF uid 6 bambuMasterSecret 16 rfidAContext

/-- `RFIDDecryptor.derive_bambu_keys`: the HKDF call followed by the
re-splitting loop `for i in range(0, len(keys_data), 6)` with slice
`keys_data[i:i+6]`. `keys_data` is the sixteen-element key list returned
by HKDF, so each appended slice is itself a list of six 6-byte keys. -/
def derive_bambu_keys (uid : List Nat) : List (List (List Nat)) :=
  let keys_data := bambuHkdfKeys uid
  (pyRangeStep 0 keys_data.length 6).filterMap (fun i =>
    if i + 6 ≤ keys_data.length then some ((keys_data.drop i).take 6) else none)

/-- The 24-byte character sequence of the source literal written with a
doubled backslash before `x00`, six times over (a backslash, an `x` and
two zeros each time), that
`load_keys_from_bin` compares each chunk against; written with `0x5c`
for the backslash character code. -/
def zeroPadLiteral : List Nat :=
  (List.replicate 6 [0x5c, 0x78, 0x30, 0x30]).flatten

/-- `RFIDDecryptor.load_keys_from_bin` on the bytes of a key file:
6-byte chunks at offsets `range(0, len, 6)`; a chunk equal to the
24-character escaped literal would be skipped (none can be), and only
full 6-byte chunks are kept. -/
def load_keys_from_bin (keyData : List Nat) : List (List Nat) :=
  (pyRangeStep 0 keyData.length 6).filterMap (fun i =>
    let keyBytes := (keyData.drop i).take 6
    if keyBytes = zeroPadLiteral then none
    else if keyBytes.length = 6 then some keyBytes else none)

/-- Per-line acceptance of `RFIDDecryptor.load_keys_from_dic`: strip the
line; keep it when it is nonempty, exactly 12 characters long and
`bytes.fromhex` accepts it. -/
def dicLineKey (l : String) : Option (List Nat) :=
  let line := pyStrip l
  if line ≠ "" ∧ line.data.length = 12 then pyFromHex line else none

/-- `RFIDDecryptor.load_keys_from_dic` over the text of a `.dic` file. -/
def load_keys_from_dic (text : String) : List (List Nat) :=
  (pySplitLines text).filterMap dicLineKey

/-! ## Dump codec, sector model and interchange encoder
(`generate-encrypted-json.py`) -/

/-- Card layout variants distinguished by `bin_to_proxmark3_json`'s size
dispatch. -/
inductive CardLayout where
  | Classic1K
  | Classic1KPlus2
  | Classic4K
deriving DecidableEq

/-- Size dispatch of `bin_to_proxmark3_json`: 1024, 1152 and 4096 bytes
are recognised; anything else is the unsupported-size failure (`None`
with a warning in the source). -/
def classifyDump (byteLength : Nat) : Option CardLayout :=
  if byteLength = 1024 then some .Classic1K
  else if byteLength = 1152 then some .Classic1KPlus2
  else if byteLength = 4096 then some .Classic4K
  else none

/-- Expected block count per layout (`expected_blocks` in the source). -/
def layoutBlockCount : CardLayout → Nat
  | .Classic1K => 64
  | .Classic1KPlus2 => 72
  | .Classic4K => 256

/-- Card-type string per layout (`card_type` in the source). -/
def layoutCardType : CardLayout → String
  | .Classic1K => "MIFARE Classic 1K"
  | .Classic1KPlus2 => "MIFARE Classic 1K+2sectors"
  | .Classic4K => "MIFARE Classic 4K"

/-- The `blocks` dictionary built by `bin_to_proxmark3_json`: block number
(a decimal-string key in Python, modelled as the number itself) mapped to
the uppercase hex of bytes `16*n .. 16*n+15`. -/
def mkBlocksMap (data : List Nat) (expectedBlocks : Nat) : List (Nat × String) :=
  (List.range expectedBlocks).map
    (fun n => (n, hexUpper ((data.drop (n * 16)).take 16)))

/-- Trailer block index per sector, from `extract_sector_keys_from_blocks`:
`sector*4 + 3` below sector 32, `128 + (sector-32)*16 + 15` from 32 on. -/
def trailerBlockIndex (sector : Nat) : Nat :=
  if sector < 32 then sector * 4 + 3 else 128 + (sector - 32) * 16 + 15

/-- Access-condition text for one sector, from
`generate_access_conditions_text`: `UserData` is the last byte (two hex
characters) of the access-condition string, every non-trailer block of
the sector reads "read AB", and the trailer block gets the
trailer description. -/
def generate_access_conditions_text (accessConditions : String) (sector : Nat) :
    List (String × String) :=
  ("UserData", pyLastTwo accessConditions) ::
    (if sector < 32 then
      (List.range 4).map (fun i =>
        ("block" ++ toString (sector * 4 + i),
         if i = 3 then "read ACCESS by AB; write ACCESS by B" else "read AB"))
    else
      (List.range 16).map (fun i =>
        ("block" ++ toString (128 + (sector - 32) * 16 + i),
         if i = 15 then "read ACCESS by AB; write ACCESS by B" else "read AB")))

/-- Per-sector key record in the order the source inserts the fields:
KeyA, KeyB, AccessConditions, AccessConditionsText. -/
structure SectorData where
  KeyA : String
  KeyB : String
  AccessConditions : String
  AccessConditionsText : List (String × String)
deriving DecidableEq

/-- Sector record built from a 32-hex-character trailer block:
KeyA = chars 0–11, AccessConditions = chars 12–19, KeyB = chars 20–31. -/
def mkSectorData (sector : Nat) (trailerHex : String) : SectorData :=
  { KeyA := strSlice trailerHex 0 12
    KeyB := strSlice trailerHex 20 32
    AccessConditions := strSlice trailerHex 12 20
    AccessConditionsText :=
      generate_access_conditions_text (strSlice trailerHex 12 20) sector }

/-- Highest block number among the keys,
`max(int(k) for k in blocks.keys())`. Python's `max` raises on an empty
dictionary; the fold with base 0 agrees with it on every nonempty
dictionary, and the scripts never call this on an empty one. -/
def pyMaxBlock (blocks : List (Nat × String)) : Nat :=
  (blocks.map (fun kv => kv.1)).foldl Nat.max 0

/-- `extract_sector_keys_from_blocks`: choose the sector count from the
highest block number, then for each sector look up its trailer block and
keep the sector only when the trailer is present with exactly 32 hex
characters. -/
def extract_sector_keys_from_blocks (blocks : List (Nat × String)) :
    List (Nat × SectorData) :=
  let maxBlock := pyMaxBlock blocks
  let maxSectors :=
    if 127 ≤ maxBlock then 40
    else if 63 ≤ maxBlock then (maxBlock + 1) / 4
    else 16
  (List.range maxSectors).filterMap (fun sector =>
    match blocks.lookup (trailerBlockIndex sector) with
    | none => none
    | some trailerHex =>
      if trailerHex.length = 32 then some (sector, mkSectorData sector trailerHex)
      else none)

/-- The Proxmark3-style interchange document, fields in emission order. -/
structure Proxmark3Doc where
  Created : String
  FileType : String
  cardUID : String
  cardATQA : String
  cardSAK : String
  blocks : List (Nat × String)
  SectorKeys : List (Nat × SectorData)
deriving DecidableEq

/-- Document `bin_to_proxmark3_json` assembles for a recognised layout:
UID from the first four bytes, ATQA/SAK picked by whether the card-type
string starts with "MIFARE Classic 4K", the block map, and the sector
keys extracted from it. -/
def mkDoc (data : List Nat) (layout : CardLayout) : Proxmark3Doc :=
  { Created := "proxmark3"
    FileType := "mfc v2"
    cardUID := hexUpper (data.take 4)
    cardATQA :=
      if pyStartsWith (layoutCardType layout) "MIFARE Classic 4K" then "0200"
      else "0400"
    cardSAK :=
      if pyStartsWith (layoutCardType layout) "MIFARE Classic 4K" then "18"
      else "08"
    blocks := mkBlocksMap data (layoutBlockCount layout)
    SectorKeys := extract_sector_keys_from_blocks
      (mkBlocksMap data (layoutBlockCount layout)) }

/-- `bin_to_proxmark3_json` on the bytes of a dump file: classify by
size, then assemble the interchange document. -/
def bin_to_proxmark3_json (data : List Nat) : Option Proxmark3Doc :=
  match classifyDump data.length with
  | none => none
  | some layout => some (mkDoc data layout)

/-- Modelled from the spec: the interchange *decode* step (reading a
document's `blocks` mapping back to dump bytes) has no implementation in
the repository — only the encoder exists — so the round-trip law's
decoder is taken from the spec's words: each block's hex string decodes
to its 16 bytes, concatenated in key order. -/
def docToBytes (doc : Proxmark3Doc) : List Nat :=
  (doc.blocks.map (fun kv => (pyFromHex kv.2).getD [])).flatten

/-! ## Decoded-record line scanning (`yaml_to_json` in
`decrypt-rfid-dumps.py` and in `local-json-generator.py`) -/

/-- Scalar JSON value a parsed line can produce. -/
inductive PyVal where
  | VStr : String → PyVal
  | VInt : Int → PyVal
  | VBool : Bool → PyVal
deriving DecidableEq

/-- Top-level dictionary entry: a scalar, or the nested `temperatures`
mapping. -/
inductive YEntry where
  | EVal : PyVal → YEntry
  | EMap : List (String × PyVal) → YEntry
deriving DecidableEq

/-- Python dict assignment `d[k] = v` on an insertion-ordered dictionary:
an existing key keeps its position, a new key goes to the end. -/
def dictInsert {α : Type} : List (String × α) → String → α → List (String × α)
  | [], k, v => [(k, v)]
  | (k', v') :: rest, k, v =>
    if k' = k then (k, v) :: rest else (k', v') :: dictInsert rest k v

/-- Python `line.split(': ', 1)` when the separator occurs: the text
before the first colon-space and the text after it; `none` when the
separator is absent (so `isSome` is Python's `': ' in line`). -/
def splitCS : List Char → Option (List Char × List Char)
  | [] => none
  | ':' :: ' ' :: rest => some ([], rest)
  | c :: rest => (splitCS rest).map (fun p => (c :: p.1, p.2))

/-- Scalar coercion both scripts apply to top-level values: all-digit
strings become integers, case-insensitive `true`/`false` become
booleans, everything else stays a string. -/
def coerceScalar (value : String) : PyVal :=
  if pyIsDigit value then .VInt (Int.ofNat (decimalValue value))
  else if pyLower value = "true" then .VBool true
  else if pyLower value = "false" then .VBool false
  else .VStr value

/-- Coercion inside the temperature block: only `bed_temp_type` is
int-coerced (kept as a string when `int()` fails); every other value
stays a string verbatim. -/
def tempCoerce (tempKey tempVal : String) : PyVal :=
  if tempKey = "bed_temp_type" then
    match pyIntOpt tempVal with
    | some n => .VInt n
    | none => .VStr tempVal
  else .VStr tempVal

/-- Recognises a raw (unstripped) temperature sub-field line: the
two-space-plus-dash prefix tested by `lines[i].startswith('  - ')`. -/
def tempLinePred (l : String) : Bool :=
  pyStartsWith l "  - "

/-- Body of the inner temperature loop for one raw line: drop the 4-byte
prefix, and when the line still contains `': '` record the stripped key
and coerced value. -/
def tempFold (acc : List (String × PyVal)) (l : String) : List (String × PyVal) :=
  match splitCS (pyDrop 4 l).data with
  | some (ks, vs) =>
    dictInsert acc (pyStrip (String.mk ks))
      (tempCoerce (pyStrip (String.mk ks)) (pyStrip (String.mk vs)))
  | none => acc

/-- Line scanner of `RFIDDecryptor.yaml_to_json`, with an explicit bound
on the number of outer-loop iterations (the Python `while` consumes at
least one line per iteration, so the line count always suffices; the
wrapper below passes it). Only `"- "` list lines are handled; both
`"- key: value"` and `"- key:"` shapes assign a field, a `temperatures`
key with empty value collects the following `"  - "`-prefixed raw lines
into the nested mapping, and everything else is skipped. -/
def parseLinesDF : Nat → List String → List (String × YEntry) → List (String × YEntry)
  | 0, _, data => data
  | _ + 1, [], data => data
  | fuel + 1, l :: rest, data =>
    let line := pyStrip l
    if line = "" || pyStartsWith line "#" then parseLinesDF fuel rest data
    else if pyStartsWith line "- " then
      if (splitCS line.data).isSome || pyEndsWith line ":" then
        let remaining := pyDrop 2 line
        match splitCS remaining.data with
        | some (ks, vs) =>
          let key := pyStrip (String.mk ks)
          let value := pyStrip (String.mk vs)
          if key = "temperatures" ∧ value = "" then
            parseLinesDF fuel (rest.dropWhile tempLinePred)
              (dictInsert data "temperatures"
                (.EMap ((rest.takeWhile tempLinePred).foldl tempFold [])))
          else parseLinesDF fuel rest (dictInsert data key (.EVal (coerceScalar value)))
        | none =>
          if pyEndsWith remaining ":" then
            let key := pyStrip (pyDropLast remaining)
            if key = "temperatures" then
              parseLinesDF fuel (rest.dropWhile tempLinePred)
                (dictInsert data "temperatures"
                  (.EMap ((rest.takeWhile tempLinePred).foldl tempFold [])))
            else parseLinesDF fuel rest (dictInsert data key (.EVal (coerceScalar "")))
          else parseLinesDF fuel rest data
      else parseLinesDF fuel rest data
    else parseLinesDF fuel rest data

/-- The decrypt-script line scanner over a whole line list. -/
def parseLinesD (lines : List String) (data : List (String × YEntry)) :
    List (String × YEntry) :=
  parseLinesDF lines.length lines data

/-- `RFIDDecryptor.yaml_to_json`: scan the stripped text's lines, then
attach the basename of the dump file as `filename`. -/
def yaml_to_json_decrypt (yamlOutput filename : String) : List (String × YEntry) :=
  dictInsert (parseLinesD (pySplitLines (pyStrip yamlOutput)) []) "filename"
    (.EVal (.VStr (pyBasename filename)))

/-- Line scanner of `local-json-generator.py`'s `yaml_to_json`: a
`"- "` line is handled only when it also contains `': '`; a line with
`': '` that does not start with `'-'` is handled as a plain
`key: value` assignment; both branches share the temperature handling
and scalar coercion. The `none` fallthroughs of the two matches are
unreachable (each branch has established that the split succeeds). -/
def parseLinesLF : Nat → List String → List (String × YEntry) → List (String × YEntry)
  | 0, _, data => data
  | _ + 1, [], data => data
  | fuel + 1, l :: rest, data =>
    let line := pyStrip l
    if line = "" || pyStartsWith line "#" then parseLinesLF fuel rest data
    else if pyStartsWith line "- " && (splitCS line.data).isSome then
      match splitCS (pyDrop 2 line).data with
      | some (ks, vs) =>
        let key := pyStrip (String.mk ks)
        let value := pyStrip (String.mk vs)
        if key = "temperatures" ∧ value = "" then
          parseLinesLF fuel (rest.dropWhile tempLinePred)
            (dictInsert data "temperatures"
              (.EMap ((rest.takeWhile tempLinePred).foldl tempFold [])))
        else parseLinesLF fuel rest (dictInsert data key (.EVal (coerceScalar value)))
      | none => parseLinesLF fuel rest data
    else if (splitCS line.data).isSome && !pyStartsWith line "-" then
      match splitCS line.data with
      | some (ks, vs) =>
        let key := pyStrip (String.mk ks)
        let value := pyStrip (String.mk vs)
        if key = "temperatures" ∧ value = "" then
          parseLinesLF fuel (rest.dropWhile tempLinePred)
            (dictInsert data "temperatures"
              (.EMap ((rest.takeWhile tempLinePred).foldl tempFold [])))
        else parseLinesLF fuel rest (dictInsert data key (.EVal (coerceScalar value)))
      | none => parseLinesLF fuel rest data
    else parseLinesLF fuel rest data

/-- The local-generator line scanner over a whole line list. -/
def parseLinesL (lines : List String) (data : List (String × YEntry)) :
    List (String × YEntry) :=
  parseLinesLF lines.length lines data

/-- `yaml_to_json` of `local-json-generator.py` (its caller, not the
function, attaches `filename`). -/
def yaml_to_json_local (yamlOutput : String) : List (String × YEntry) :=
  parseLinesL (pySplitLines (pyStrip yamlOutput)) []

/-- Remove one key from an association list (used to compare the two
scanners while ignoring the `filename` field the first one attaches). -/
def eraseKey {α : Type} (k : String) (m : List (String × α)) : List (String × α) :=
  m.filter (fun kv => decide (kv.1 ≠ k))

/-- Lines on which the two scanners take the same path: blank or comment
lines, and `"- key: value"` lines whose key is not a `temperatures`
opener with empty value. -/
def goodLineB (l : String) : Bool :=
  let s := pyStrip l
  if s = "" then true
  else if pyStartsWith s "#" then true
  else if pyStartsWith s "- " then
    match splitCS (pyDrop 2 s).data with
    | some (ks, vs) =>
      if pyStrip (String.mk ks) = "temperatures" then
        decide (pyStrip (String.mk vs) ≠ "")
      else true
    | none => false
  else false

/-! ## C4: size classification -/

/-- C4: `classify` returns `Classic1K` for 1024 bytes, `Classic1KPlus2`
for 1152, `Classic4K` for 4096, and fails (returns `none`, the
unsupported-dump-size outcome) for every other length. -/
theorem classify_sizes :
    classifyDump 1024 = some CardLayout.Classic1K ∧
    classifyDump 1152 = some CardLayout.Classic1KPlus2 ∧
    classifyDump 4096 = some CardLayout.Classic4K ∧
    ∀ n : Nat, n ≠ 1024 → n ≠ 1152 → n ≠ 4096 → classifyDump n = none := by
  refine ⟨rfl, rfl, rfl, ?_⟩
  intro n h1 h2 h3
  simp [classifyDump, h1, h2, h3]

/-- Witness for C4 at the concrete unsupported length 2048. -/
theorem classify_sizes_witness : classifyDump 2048 = none :=
  classify_sizes.2.2.2 2048 (by decide) (by decide) (by decide)

/-! ## C5: trailer block indices -/

/-- C5: for sectors 0–31 the trailer block is `4*s + 3`, for sectors
32–39 it is `128 + 16*(s-32) + 15`, and distinct sectors in 0–39 never
share a trailer block. -/
theorem trailer_block_indices :
    (∀ s, s < 32 → trailerBlockIndex s = 4 * s + 3) ∧
    (∀ s, 32 ≤ s → s ≤ 39 → trailerBlockIndex s = 128 + 16 * (s - 32) + 15) ∧
    (∀ s, s < 40 → ∀ t, t < 40 → s ≠ t →
      trailerBlockIndex s ≠ trailerBlockIndex t) := by
  refine ⟨?_, ?_, by decide⟩
  · intro s hs
    simp only [trailerBlockIndex, if_pos hs]
    omega
  · intro s h1 _
    simp only [trailerBlockIndex, if_neg (by omega : ¬s < 32)]
    omega

/-- Witness for C5 at concrete sectors 5, 33 and the pair (0, 1). -/
theorem trailer_block_indices_witness :
    trailerBlockIndex 5 = 23 ∧ trailerBlockIndex 33 = 159 ∧
      trailerBlockIndex 0 ≠ trailerBlockIndex 1 := by
  refine ⟨?_, ?_, trailer_block_indices.2.2 0 (by decide) 1 (by decide) (by decide)⟩
  · rw [trailer_block_indices.1 5 (by decide)]
  · rw [trailer_block_indices.2.1 33 (by decide) (by decide)]

/-! ## C2: zero-padding keys are never skipped (code bug) -/

/-- C2 (code bug): on a 96-byte all-zero buffer `load_keys_from_bin`
returns sixteen all-zero 6-byte keys instead of the empty sequence the
spec (and the code's own "Skip zero-padding keys" comment) demand: the
comparison literal is a doubly-escaped 24-character string no 6-byte
chunk can equal. -/
theorem load_keys_from_bin_zero_bug :
    load_keys_from_bin (List.replicate 96 0) =
      List.replicate 16 (List.replicate 6 0) := by decide

/-! ## C1: key derivation -/

/-- A SHA-256 digest is always 32 bytes. -/
theorem sha256_length (msg : List Nat) : (sha256 msg).length = 32 := by
  unfold sha256
  simp [digestBytes, wordBytes]

/-- An HMAC-SHA256 tag is always 32 bytes. -/
theorem hmacSha256_length (key msg : List Nat) : (hmacSha256 key msg).length = 32 := by
  unfold hmacSha256
  simp [sha256_length]

/-- Every positive-index HKDF expansion block is 32 bytes. -/
theorem hkdfT_length (prk ctx : List Nat) (n : Nat) :
    (hkdfT prk ctx (n + 1)).length = 32 := by
  simp [hkdfT, hmacSha256_length]

/-- The HKDF call inside `derive_bambu_keys` produces exactly sixteen
keys of six bytes each (96 bytes of output key material). -/
theorem bambuHkdfKeys_sizes (uid : List Nat) :
    (bambuHkdfKeys uid).length = 16 ∧
      (bambuHkdfKeys uid).map List.length = List.replicate 16 6 := by
  have l1 := hkdfT_length (hmacSha256 bambuMasterSecret uid) rfidAContext 0
  have l2 := hkdfT_length (hmacSha256 bambuMasterSecret uid) rfidAContext 1
  have l3 := hkdfT_length (hmacSha256 bambuMasterSecret uid) rfidAContext 2
  norm_num at l1 l2 l3
  simp only [bambuHkdfKeys, pyHKDF]
  have hrange : List.range ((6 * 16 + 31) / 32) = [0, 1, 2] := by decide
  have hstep : pyRangeStep 0 (6 * 16) 6 =
      [0, 6, 12, 18, 24, 30, 36, 42, 48, 54, 60, 66, 72, 78, 84, 90] := by decide
  rw [hrange, hstep]
  simp only [List.map_cons, List.map_nil, List.flatten_cons, List.flatten_nil,
    List.append_nil, List.length_map, List.map_map]
  refine ⟨by simp, ?_⟩
  simp only [List.take_succ_cons, List.take_nil, List.map_cons, List.map_nil,
    Function.comp_apply, List.length_take, List.length_drop, List.length_append,
    l1, l2, l3]
  norm_num
  rfl

/-- C1 (amended): `derive_bambu_keys` runs PyCryptodome HKDF-SHA256 with
the UID as input keying material and the fixed 16-byte master secret as
salt, context "RFID-A" plus NUL, requesting sixteen 6-byte keys (96
bytes of output key material); the returned sixteen-key list is then
re-chunked in slices of six *list elements*, so the function returns two
groups of six 6-byte keys (the last four keys are discarded). -/
theorem derive_bambu_keys_structure (uid : List Nat) :
    derive_bambu_keys uid =
      [(bambuHkdfKeys uid).take 6, ((bambuHkdfKeys uid).drop 6).take 6] ∧
    (bambuHkdfKeys uid).length = 16 ∧
    (bambuHkdfKeys uid).map List.length = List.replicate 16 6 := by
  obtain ⟨h16, hmap⟩ := bambuHkdfKeys_sizes uid
  refine ⟨?_, h16, hmap⟩
  simp only [derive_bambu_keys]
  rw [h16]
  have hstep : pyRangeStep 0 16 6 = [0, 6, 12] := by decide
  rw [hstep]
  simp [List.filterMap_cons, h16]

/-- C1 counterexample: at the concrete UID `04 A1 B2 C3` the function
does not return six keys (its result has two elements, each itself a
list of six keys), refuting the claimed "six consecutive 6-byte keys". -/
theorem derive_bambu_keys_not_six :
    (derive_bambu_keys [0x04, 0xA1, 0xB2, 0xC3]).length ≠ 6 := by decide

/-! ## C7: access-condition text -/

/-- Block indices of a sector per the data model (the claim's reading):
four consecutive blocks from `4*s` below sector 32, sixteen from
`128 + 16*(s-32)` at or above. -/
def sectorBlocks (sector : Nat) : List Nat :=
  if sector < 32 then (List.range 4).map (fun i => sector * 4 + i)
  else (List.range 16).map (fun i => 128 + (sector - 32) * 16 + i)

/-- C7: for every sector and every 4-byte AccessBits value, the access
text maps `UserData` to the hex of the last byte, every non-trailer
block of the sector to "read AB", and the trailer block to the trailer
description. -/
theorem access_text_policy (a b c d : Nat) (_ha : a < 256) (_hb : b < 256)
    (_hc : c < 256) (_hd : d < 256) (sector : Nat) :
    generate_access_conditions_text (hexUpper [a, b, c, d]) sector =
      ("UserData", hexUpper [d]) ::
        (sectorBlocks sector).map (fun bk =>
          ("block" ++ toString bk,
           if bk = trailerBlockIndex sector then "read ACCESS by AB; write ACCESS by B"
           else "read AB")) := by
  have hud : pyLastTwo (hexUpper [a, b, c, d]) = hexUpper [d] := rfl
  unfold generate_access_conditions_text sectorBlocks
  rw [hud]
  by_cases hs : sector < 32
  · simp only [if_pos hs, List.map_map]
    refine congrArg (List.cons _) (List.map_congr_left ?_)
    intro i hi
    have h3 : trailerBlockIndex sector = sector * 4 + 3 := by
      simp [trailerBlockIndex, hs]
    rw [h3]
    simp only [Function.comp_apply]
    by_cases hi3 : i = 3
    · simp [hi3]
    · have hne : sector * 4 + i ≠ sector * 4 + 3 := by omega
      simp [hi3, hne]
  · simp only [if_neg hs, List.map_map]
    refine congrArg (List.cons _) (List.map_congr_left ?_)
    intro i hi
    have h15 : trailerBlockIndex sector = 128 + (sector - 32) * 16 + 15 := by
      simp [trailerBlockIndex, hs]
    rw [h15]
    simp only [Function.comp_apply]
    by_cases hi15 : i = 15
    · simp [hi15]
    · have hne : 128 + (sector - 32) * 16 + i ≠ 128 + (sector - 32) * 16 + 15 := by omega
      simp [hi15, hne]

/-- Witness for C7 at AccessBits bytes 01 02 03 04 and sector 0. -/
theorem access_text_policy_witness :
    generate_access_conditions_text (hexUpper [1, 2, 3, 4]) 0 =
      ("UserData", hexUpper [4]) ::
        (sectorBlocks 0).map (fun bk =>
          ("block" ++ toString bk,
           if bk = trailerBlockIndex 0 then "read ACCESS by AB; write ACCESS by B"
           else "read AB")) :=
  access_text_policy 1 2 3 4 (by decide) (by decide) (by decide) (by decide) 0

/-! ## C6: sector grouping of the 1152-byte layout -/

/-- Lookup in an association list keyed by an offset range of numbers. -/
theorem lookup_range_map_off {α : Type} (f : Nat → α) (off n k : Nat) :
    (((List.range n).map (fun i => (off + i, f (off + i)))).lookup k) =
      if off ≤ k ∧ k < off + n then some (f k) else none := by
  induction n generalizing off with
  | zero =>
    rw [List.range_zero, List.map_nil, if_neg (by omega : ¬(off ≤ k ∧ k < off + 0))]
    rfl
  | succ n ih =>
    rw [List.range_succ_eq_map, List.map_cons, List.map_map]
    have hmap : (List.range n).map ((fun i => (off + i, f (off + i))) ∘ Nat.succ) =
        (List.range n).map (fun i => (off + 1 + i, f (off + 1 + i))) := by
      refine List.map_congr_left ?_
      intro i _
      have hoff : off + (i + 1) = off + 1 + i := by omega
      simp [Function.comp_apply, Nat.succ_eq_add_one, hoff]
    rw [hmap]
    by_cases hk : k = off
    · subst hk
      simp [List.lookup]
    · have hbeq : (k == off) = false := by simp [hk]
      simp only [List.lookup, Nat.add_zero, hbeq, ih (off + 1)]
      split_ifs with h1 h2 h2 <;> first | rfl | omega

/-- Lookup in the block map of a dump. -/
theorem lookup_mkBlocksMap (data : List Nat) (nb k : Nat) :
    ((mkBlocksMap data nb).lookup k) =
      if k < nb then some (hexUpper ((data.drop (k * 16)).take 16)) else none := by
  have h := lookup_range_map_off
    (fun n => hexUpper ((data.drop (n * 16)).take 16)) 0 nb k
  simpa [mkBlocksMap] using h

/-- Evaluating `filterMap` when the function succeeds on every element. -/
theorem filterMap_eq_map_of_some {α β : Type} (f : α → Option β) (g : α → β)
    (l : List α) (h : ∀ a ∈ l, f a = some (g a)) : l.filterMap f = l.map g := by
  induction l with
  | nil => simp
  | cons a l ih =>
    rw [List.filterMap_cons, h a (by simp), List.map_cons,
      ih (fun x hx => h x (by simp [hx]))]

/-- A hex-encoded byte string has two characters per byte. -/
theorem hexUpper_length (bs : List Nat) : (hexUpper bs).length = 2 * bs.length := by
  induction bs with
  | nil => rfl
  | cons b bs ih =>
    simp only [hexUpper, String.length, List.flatMap_cons] at ih ⊢
    simp only [List.length_append, List.length_cons, List.length_nil, List.length_cons]
    omega

/-- The access text of a small sector describes `UserData` and four
blocks; that of a large sector `UserData` and sixteen. -/
theorem access_text_length (ac : String) (s : Nat) :
    (generate_access_conditions_text ac s).length = if s < 32 then 5 else 17 := by
  unfold generate_access_conditions_text
  by_cases hs : s < 32 <;> simp [hs]

/-- C6 counterexample: on a (concrete all-zero) 1152-byte dump the
sector model produces eighteen sectors of four blocks each — every
sector's access text lists `UserData` plus 4 blocks (5 entries) — and
not the claimed sixteen four-block sectors plus two sixteen-block
sectors (whose access texts would list 5 entries sixteen times and then
17 entries twice). -/
theorem sectors_1152_counterexample :
    (extract_sector_keys_from_blocks (mkBlocksMap (List.replicate 1152 0) 72)).map
        (fun kv => kv.2.AccessConditionsText.length) = List.replicate 18 5 ∧
    ¬ ((extract_sector_keys_from_blocks (mkBlocksMap (List.replicate 1152 0) 72)).map
        (fun kv => kv.2.AccessConditionsText.length) =
      List.replicate 16 5 ++ List.replicate 2 17) := by decide

/-- C6 (amended): for every 1152-byte dump the sector model groups the
72 blocks into eighteen four-block sectors, numbered 0–17: the sector
list is exactly `0, …, 17` and each sector's access text covers
`UserData` plus four blocks. -/
theorem sectors_1152 (data : List Nat) (hlen : data.length = 1152) :
    (extract_sector_keys_from_blocks (mkBlocksMap data 72)).map (fun kv => kv.1) =
      List.range 18 ∧
    (extract_sector_keys_from_blocks (mkBlocksMap data 72)).map
      (fun kv => kv.2.AccessConditionsText.length) = List.replicate 18 5 := by
  have hfst : (mkBlocksMap data 72).map (fun kv => kv.1) = List.range 72 := by
    simp [mkBlocksMap, List.map_map, Function.comp_def]
  have hmax : pyMaxBlock (mkBlocksMap data 72) = 71 := by
    rw [pyMaxBlock, hfst]
    rfl
  have hext : extract_sector_keys_from_blocks (mkBlocksMap data 72) =
      (List.range 18).map (fun sector =>
        (sector, mkSectorData sector
          (hexUpper ((data.drop ((sector * 4 + 3) * 16)).take 16)))) := by
    simp only [extract_sector_keys_from_blocks, hmax]
    norm_num
    refine filterMap_eq_map_of_some _ _ _ ?_
    intro s hs
    have hs18 : s < 18 := List.mem_range.mp hs
    have htr : trailerBlockIndex s = s * 4 + 3 := by
      simp [trailerBlockIndex, show s < 32 by omega]
    have hchunk : ((data.drop ((s * 4 + 3) * 16)).take 16).length = 16 := by
      simp only [List.length_take, List.length_drop, hlen]
      omega
    have hlen32 : (hexUpper ((data.drop ((s * 4 + 3) * 16)).take 16)).length = 32 := by
      rw [hexUpper_length, hchunk]
    rw [htr, lookup_mkBlocksMap, if_pos (by omega : s * 4 + 3 < 72)]
    simp [hlen32]
  refine ⟨?_, ?_⟩
  · rw [hext]
    simp [List.map_map, Function.comp_def]
  · rw [hext]
    simp only [List.map_map, Function.comp_def]
    have hval : ∀ s ∈ List.range 18,
        (mkSectorData s
          (hexUpper ((data.drop ((s * 4 + 3) * 16)).take 16))).AccessConditionsText.length
          = 5 := by
      intro s hs
      have hs18 : s < 18 := List.mem_range.mp hs
      simp [mkSectorData, access_text_length, show s < 32 by omega]
    rw [List.map_congr_left hval]
    rfl

/-- Witness for C6 at the concrete all-zero 1152-byte dump. -/
theorem sectors_1152_witness :
    (extract_sector_keys_from_blocks
        (mkBlocksMap (List.replicate 1152 (0 : Nat)) 72)).map (fun kv => kv.1) =
      List.range 18 :=
  (sectors_1152 (List.replicate 1152 0) (by simp)).1

/-! ## C8: interchange round-trip -/

/-- Every hex digit emitted by the encoder is read back to its value. -/
theorem hexCharVal_hexDigitChar : ∀ d, d < 16 → hexCharVal (hexDigitChar d) = some d := by
  decide

/-- No hex digit emitted by the encoder is whitespace. -/
theorem isSpaceChar_hexDigitChar : ∀ d, d < 16 → isSpaceChar (hexDigitChar d) = false := by
  decide

/-- Decoding inverts encoding on byte strings. -/
theorem pyFromHex_hexUpper (bs : List Nat) (h256 : ∀ b ∈ bs, b < 256) :
    pyFromHex (hexUpper bs) = some bs := by
  induction bs with
  | nil => rfl
  | cons b bs ih =>
    have hb : b < 256 := h256 b (by simp)
    have hdiv : b / 16 < 16 := by omega
    have hmod : b % 16 < 16 := by omega
    have hrest := ih (fun x hx => h256 x (by simp [hx]))
    simp only [pyFromHex, hexUpper, List.flatMap_cons] at hrest ⊢
    simp only [List.append_eq, List.cons_append, List.nil_append, pyFromHexPairs,
      isSpaceChar_hexDigitChar _ hdiv, hexCharVal_hexDigitChar _ hdiv,
      hexCharVal_hexDigitChar _ hmod, Bool.false_eq_true, if_false]
    rw [hrest]
    simp [Nat.div_add_mod']

/-- Concatenating the 16-byte chunks of a buffer recovers the buffer. -/
theorem blocks_join (nb : Nat) : ∀ data : List Nat, data.length = 16 * nb →
    ((List.range nb).map (fun i => (data.drop (i * 16)).take 16)).flatten = data := by
  induction nb with
  | zero =>
    intro data hlen
    rw [List.length_eq_zero] at hlen
    simp [hlen]
  | succ nb ih =>
    intro data hlen
    rw [List.range_succ_eq_map, List.map_cons, List.map_map]
    have hmap : (List.range nb).map
        ((fun i => (data.drop (i * 16)).take 16) ∘ Nat.succ) =
        (List.range nb).map (fun i => ((data.drop 16).drop (i * 16)).take 16) := by
      refine List.map_congr_left ?_
      intro i _
      simp only [Function.comp_apply, List.drop_drop, Nat.succ_mul]
      rw [Nat.add_comm 16 (i * 16)]
    rw [hmap]
    simp only [List.flatten_cons, Nat.zero_mul, List.drop_zero]
    rw [ih (data.drop 16) (by rw [List.length_drop, hlen]; omega)]
    exact List.take_append_drop 16 data

/-- Decoding an encoded document's blocks in key order recovers the dump
bytes. -/
theorem docToBytes_mkDoc (data : List Nat) (h256 : ∀ b ∈ data, b < 256)
    (layout : CardLayout) (hlen : data.length = 16 * layoutBlockCount layout) :
    docToBytes (mkDoc data layout) = data := by
  show ((mkBlocksMap data (layoutBlockCount layout)).map
    (fun kv => (pyFromHex kv.2).getD [])).flatten = data
  rw [mkBlocksMap, List.map_map]
  have hpt : ∀ i ∈ List.range (layoutBlockCount layout),
      ((fun kv : Nat × String => (pyFromHex kv.2).getD []) ∘
        (fun n => (n, hexUpper ((data.drop (n * 16)).take 16)))) i =
      (data.drop (i * 16)).take 16 := by
    intro i _
    simp only [Function.comp_apply]
    rw [pyFromHex_hexUpper _ (fun b hb => h256 b
      (List.mem_of_mem_drop (List.mem_of_mem_take hb)))]
    rfl
  rw [List.map_congr_left hpt]
  exact blocks_join (layoutBlockCount layout) data hlen

/-- C8: for every valid dump (supported size, byte values), encoding,
decoding the document's blocks back to bytes, and re-encoding reproduces
the original document — in particular the blocks mapping, hex case and
key order included. -/
theorem interchange_roundtrip (data : List Nat) (h256 : ∀ b ∈ data, b < 256)
    (hsize : data.length = 1024 ∨ data.length = 1152 ∨ data.length = 4096) :
    ∃ doc, bin_to_proxmark3_json data = some doc ∧
      bin_to_proxmark3_json (docToBytes doc) = some doc ∧
      docToBytes doc = data := by
  have hexists : ∃ layout, classifyDump data.length = some layout ∧
      data.length = 16 * layoutBlockCount layout := by
    rcases hsize with h | h | h <;> rw [h] <;> exact ⟨_, rfl, by decide⟩
  obtain ⟨layout, hc, hlen⟩ := hexists
  have hdb : docToBytes (mkDoc data layout) = data := docToBytes_mkDoc data h256 layout hlen
  have henc : bin_to_proxmark3_json data = some (mkDoc data layout) := by
    simp [bin_to_proxmark3_json, hc]
  exact ⟨mkDoc data layout, henc, by rw [hdb]; exact henc, hdb⟩

/-- Witness for C8 at the concrete all-zero 1024-byte dump. -/
theorem interchange_roundtrip_witness :
    ∃ doc, bin_to_proxmark3_json (List.replicate 1024 (0 : Nat)) = some doc ∧
      bin_to_proxmark3_json (docToBytes doc) = some doc ∧
      docToBytes doc = List.replicate 1024 (0 : Nat) :=
  interchange_roundtrip (List.replicate 1024 0)
    (fun b hb => by
      have hb0 : b = 0 := List.eq_of_mem_replicate hb
      omega)
    (Or.inl (by simp))

/-! ## C9: key-dictionary line acceptance -/

/-- Hex-digit test matching the character classes `bytes.fromhex`
accepts. -/
def isHexDigitB (c : Char) : Bool :=
  (48 ≤ c.toNat && c.toNat ≤ 57) || (65 ≤ c.toNat && c.toNat ≤ 70) ||
    (97 ≤ c.toNat && c.toNat ≤ 102)

/-- A hex digit is never whitespace. -/
theorem hex_not_space (c : Char) (h : isHexDigitB c = true) :
    isSpaceChar c = false := by
  simp only [isHexDigitB, Bool.or_eq_true, Bool.and_eq_true,
    decide_eq_true_eq] at h
  simp only [isSpaceChar, Bool.or_eq_false_iff, decide_eq_false_iff_not]
  omega

/-- A hex digit has a value in the decoding table. -/
theorem hexCharVal_of_hexDigit (c : Char) (h : isHexDigitB c = true) :
    ∃ v, hexCharVal c = some v := by
  simp only [isHexDigitB, Bool.or_eq_true, Bool.and_eq_true,
    decide_eq_true_eq] at h
  unfold hexCharVal
  split_ifs with h1 h2 h3
  · exact ⟨_, rfl⟩
  · exact ⟨_, rfl⟩
  · exact ⟨_, rfl⟩
  · simp only [Bool.and_eq_true, decide_eq_true_eq] at h1 h2 h3
    omega

/-- Parsing an even-length all-hex character list yields one byte per
digit pair. -/
theorem pyFromHexPairs_allHex (k : Nat) : ∀ cs : List Char, cs.length = 2 * k →
    (∀ c ∈ cs, isHexDigitB c = true) →
    ∃ bs, pyFromHexPairs cs = some bs ∧ bs.length = k := by
  induction k with
  | zero =>
    intro cs h1 _
    rw [Nat.mul_zero, List.length_eq_zero] at h1
    exact ⟨[], by simp [h1, pyFromHexPairs], by simp⟩
  | succ k ih =>
    intro cs h1 h2
    match cs, h1 with
    | c1 :: c2 :: rest2, h1 =>
      have hc1 := h2 c1 (by simp)
      have hc2 := h2 c2 (by simp)
      obtain ⟨v1, hv1⟩ := hexCharVal_of_hexDigit c1 hc1
      obtain ⟨v2, hv2⟩ := hexCharVal_of_hexDigit c2 hc2
      obtain ⟨bs, hbs, hlen⟩ := ih rest2
        (by simp only [List.length_cons] at h1; omega)
        (fun c hc => h2 c (by simp [hc]))
      refine ⟨(v1 * 16 + v2) :: bs, ?_, by simp [hlen]⟩
      simp only [pyFromHexPairs, hex_not_space c1 hc1, Bool.false_eq_true,
        if_false, hv1, hv2, hbs]
      rfl

/-- C9 counterexample: the 12-character line `"AABB CCDD EE"` is not 12
hex characters (it contains two spaces), yet `load_keys_from_dic`
accepts it — `bytes.fromhex` ignores the spaces — and produces a 5-byte
key, refuting both the "only if 12 hex characters" acceptance rule and
the "6 bytes" conversion. -/
theorem dic_spaces_counterexample :
    load_keys_from_dic "AABB CCDD EE" = [[170, 187, 204, 221, 238]] ∧
      load_keys_from_dic "AABB CCDD EE" ≠ [] := by decide

/-- C9 (amended): a stripped line is accepted exactly when it is 12
characters long and `bytes.fromhex` accepts it (hex digit pairs, each
optionally preceded by whitespace); a line of 12 hex characters always
yields a 6-byte key, any line whose stripped form is not 12 characters
is skipped, and on the two scenario lines the 11-character one is
skipped while `"AABBCCDDEEFF"` gives bytes AA BB CC DD EE FF. -/
theorem dic_line_acceptance :
    (∀ l : String, (pyStrip l).data.length = 12 →
        (∀ c ∈ (pyStrip l).data, isHexDigitB c = true) →
        ∃ bs, dicLineKey l = some bs ∧ bs.length = 6) ∧
    (∀ l : String, (pyStrip l).data.length ≠ 12 → dicLineKey l = none) ∧
    load_keys_from_dic "AABBCCDDEEF\nAABBCCDDEEFF" =
      [[170, 187, 204, 221, 238, 255]] := by
  refine ⟨?_, ?_, by decide⟩
  · intro l hlen hhex
    have hne : pyStrip l ≠ "" := by
      intro he
      rw [he] at hlen
      exact absurd hlen (by decide)
    obtain ⟨bs, hbs, hblen⟩ := pyFromHexPairs_allHex 6 (pyStrip l).data
      (by omega) hhex
    refine ⟨bs, ?_, hblen⟩
    unfold dicLineKey
    rw [if_pos ⟨hne, hlen⟩]
    exact hbs
  · intro l h
    unfold dicLineKey
    rw [if_neg (fun hc => h hc.2)]

/-- Witness for C9 at the two scenario lines. -/
theorem dic_line_acceptance_witness :
    (∃ bs, dicLineKey "AABBCCDDEEFF" = some bs ∧ bs.length = 6) ∧
      dicLineKey "AABBCCDDEEF" = none :=
  ⟨dic_line_acceptance.1 "AABBCCDDEEFF" (by decide) (by decide),
   dic_line_acceptance.2.1 "AABBCCDDEEF" (by decide)⟩

/-! ## C3: decoded-record value coercion -/

/-- C3 counterexample: on the scenario input the decrypt-script scanner
leaves `min_hotend` as the string "190" — only `bed_temp_type` is
int-coerced inside the temperature block — so the record claimed by C3
(with `min_hotend` the integer 190) is not produced. -/
theorem scenario_min_hotend_not_int :
    ¬ ((yaml_to_json_decrypt
        "- filament_type: PLA\n- temperatures:\n  - bed_temp_type: 0\n  - min_hotend: 190\n"
        "file.bin").lookup "temperatures" =
      some (.EMap [("bed_temp_type", .VInt 0), ("min_hotend", .VInt 190)])) := by
  decide

/-- C3 (amended): the digit/boolean coercion applies to top-level scalar
values only; inside the temperature block every value stays a string
verbatim except `bed_temp_type`, which is int-coerced when `int()`
accepts it; the scenario input parses to `filament_type` "PLA" and a
temperature block with `bed_temp_type` the integer 0 and `min_hotend`
the string "190". -/
theorem coercion_policy :
    (∀ v : String, pyIsDigit v = true →
      coerceScalar v = .VInt (Int.ofNat (decimalValue v))) ∧
    (∀ v : String, pyIsDigit v = false → pyLower v = "true" →
      coerceScalar v = .VBool true) ∧
    (∀ v : String, pyIsDigit v = false → pyLower v ≠ "true" → pyLower v = "false" →
      coerceScalar v = .VBool false) ∧
    (∀ k v : String, k ≠ "bed_temp_type" → tempCoerce k v = .VStr v) ∧
    (∀ (v : String) (n : Int), pyIntOpt v = some n →
      tempCoerce "bed_temp_type" v = .VInt n) ∧
    yaml_to_json_decrypt
        "- filament_type: PLA\n- temperatures:\n  - bed_temp_type: 0\n  - min_hotend: 190\n"
        "file.bin" =
      [("filament_type", .EVal (.VStr "PLA")),
       ("temperatures", .EMap [("bed_temp_type", .VInt 0), ("min_hotend", .VStr "190")]),
       ("filename", .EVal (.VStr "file.bin"))] := by
  refine ⟨?_, ?_, ?_, ?_, ?_, by decide⟩
  · intro v h
    simp [coerceScalar, h]
  · intro v h1 h2
    simp [coerceScalar, h1, h2]
  · intro v h1 h2 h3
    simp [coerceScalar, h1, h2, h3]
  · intro k v h
    simp [tempCoerce, h]
  · intro v n h
    simp [tempCoerce, h]

/-- Witness for C3 at concrete scalar values. -/
theorem coercion_policy_witness :
    coerceScalar "42" = .VInt (Int.ofNat (decimalValue "42")) ∧
      tempCoerce "min_hotend" "190" = .VStr "190" ∧
      tempCoerce "bed_temp_type" "0" = .VInt 0 :=
  ⟨coercion_policy.1 "42" (by decide),
   coercion_policy.2.2.2.1 "min_hotend" "190" (by decide),
   coercion_policy.2.2.2.2.1 "0" 0 (by decide)⟩

/-! ## C10: the two decoded-record scanners -/

/-- A string starting with `"- "` begins with those two characters. -/
theorem startsWith_dash_space {s : String} (h : pyStartsWith s "- " = true) :
    ∃ t, s.data = '-' :: ' ' :: t := by
  unfold pyStartsWith at h
  have hd : ("- " : String).data = ['-', ' '] := rfl
  rw [hd] at h
  match hs : s.data with
  | [] => rw [hs] at h; exact absurd h (by decide)
  | [c] => rw [hs] at h; simp [List.isPrefixOf] at h
  | c1 :: c2 :: t =>
    rw [hs] at h
    simp only [List.isPrefixOf, Bool.and_eq_true, beq_iff_eq] at h
    obtain ⟨h1, h2, _⟩ := h
    exact ⟨t, by rw [← h1, ← h2]⟩

/-- Splitting on `': '` after a `"- "` prefix splits the tail. -/
theorem splitCS_cons_cons (t : List Char) :
    splitCS ('-' :: ' ' :: t) =
      (splitCS t).map (fun p => ('-' :: ' ' :: p.1, p.2)) := by
  show ((splitCS t).map _).map _ = _
  cases splitCS t <;> rfl

/-- Removing a key undoes inserting it. -/
theorem eraseKey_dictInsert {α : Type} (k : String) (v : α)
    (m : List (String × α)) :
    eraseKey k (dictInsert m k v) = eraseKey k m := by
  induction m with
  | nil => simp [dictInsert, eraseKey]
  | cons p m ih =>
    obtain ⟨pk, pv⟩ := p
    by_cases h : pk = k
    · simp [dictInsert, eraseKey, h]
    · simp only [dictInsert, if_neg h]
      simpa [eraseKey, List.filter_cons, h] using ih

/-- On good lines the two scanners take identical steps. -/
theorem scanners_agree_aux : ∀ (fuel : Nat) (lines : List String)
    (data : List (String × YEntry)),
    (∀ l ∈ lines, goodLineB l = true) →
    parseLinesDF fuel lines data = parseLinesLF fuel lines data := by
  intro fuel
  induction fuel with
  | zero => intro lines data _; rfl
  | succ fuel ih =>
    intro lines data h
    cases lines with
    | nil => rfl
    | cons l rest =>
      have hl := h l (List.mem_cons_self l rest)
      have hrest : ∀ x ∈ rest, goodLineB x = true :=
        fun x hx => h x (List.mem_cons_of_mem l hx)
      rw [goodLineB] at hl
      by_cases h0 : pyStrip l = ""
      · simp only [parseLinesDF, parseLinesLF, h0]
        norm_num
        exact ih rest data hrest
      by_cases h1 : pyStartsWith (pyStrip l) "#" = true
      · simp only [parseLinesDF, parseLinesLF, h1]
        norm_num
        exact ih rest data hrest
      rw [if_neg h0, if_neg h1] at hl
      by_cases h2 : pyStartsWith (pyStrip l) "- " = true
      case neg =>
        rw [if_neg h2] at hl
        exact absurd hl (by decide)
      rw [if_pos h2] at hl
      obtain ⟨t, ht⟩ := startsWith_dash_space h2
      have h1f : pyStartsWith (pyStrip l) "#" = false := by
        rw [← Bool.not_eq_true]
        exact h1
      have hdropt : (pyDrop 2 (pyStrip l)).data = t := by
        simp [pyDrop, ht]
      revert hl
      cases hsp : splitCS (pyDrop 2 (pyStrip l)).data with
      | none =>
        intro hl
        exact absurd hl (by decide)
      | some kv =>
        obtain ⟨ks, vs⟩ := kv
        intro hl
        have hl2 : (if pyStrip (String.mk ks) = "temperatures" then
            decide (pyStrip (String.mk vs) ≠ "") else true) = true := hl
        have hnand : ¬(pyStrip (String.mk ks) = "temperatures" ∧
            pyStrip (String.mk vs) = "") := by
          by_cases hk : pyStrip (String.mk ks) = "temperatures"
          · rw [if_pos hk] at hl2
            simp only [decide_eq_true_eq] at hl2
            exact fun hc => hl2 hc.2
          · exact fun hc => hk hc.1
        have hsome : (splitCS (pyStrip l).data).isSome = true := by
          rw [ht, splitCS_cons_cons]
          rw [hdropt] at hsp
          simp [hsp]
        simp only [parseLinesDF, parseLinesLF, decide_eq_false h0, h1f, h2,
          hsome, hsp, Bool.or_false, Bool.false_or, Bool.true_or,
          Bool.true_and, Bool.and_true, Bool.and_self, if_false, if_true,
          Bool.false_eq_true, if_neg hnand]
        exact ih rest _ hrest

/-- C10 counterexample: on the temperature scenario input the two
`yaml_to_json` implementations disagree — the decrypt-script scanner
nests the temperature block (with `min_hotend` kept a string), while the
local generator, whose list branch requires `': '` in the line, skips
`"- temperatures:"` and coerces the sub-fields as top-level integers. -/
theorem scanners_differ :
    eraseKey "filename" (yaml_to_json_decrypt
        "- filament_type: PLA\n- temperatures:\n  - bed_temp_type: 0\n  - min_hotend: 190\n"
        "f.bin") ≠
      eraseKey "filename" (yaml_to_json_local
        "- filament_type: PLA\n- temperatures:\n  - bed_temp_type: 0\n  - min_hotend: 190\n") := by
  decide

/-- C10 (amended): the two implementations produce the same mapping
(ignoring the `filename` field) on every input whose stripped non-blank,
non-comment lines each start with `"- "`, contain `': '`, and do not
open a `temperatures` block (key `temperatures` with empty value). -/
theorem scanners_agree (text fn : String)
    (h : ∀ l ∈ pySplitLines (pyStrip text), goodLineB l = true) :
    eraseKey "filename" (yaml_to_json_decrypt text fn) =
      eraseKey "filename" (yaml_to_json_local text) := by
  unfold yaml_to_json_decrypt yaml_to_json_local parseLinesD parseLinesL
  rw [eraseKey_dictInsert]
  rw [scanners_agree_aux (pySplitLines (pyStrip text)).length
    (pySplitLines (pyStrip text)) [] h]

/-- Witness for C10 on a concrete two-line input without a temperature
block. -/
theorem scanners_agree_witness :
    eraseKey "filename" (yaml_to_json_decrypt
        "- filament_type: PLA\n- color: red" "f.bin") =
      eraseKey "filename" (yaml_to_json_local
        "- filament_type: PLA\n- color: red") :=
  scanners_agree "- filament_type: PLA\n- color: red" "f.bin" (by decide)

end BambuRFID
